import Mathlib

/-!
Verification development for the MediChain authenticity ledger engine.

The in-process reference engine lives in src/blockchain.js; the
consensus-runtime twin lives in src/contracts/MediChain.sol.  Both are
shallowly embedded below.  The SHA-256 digest (a platform primitive,
crypto.subtle.digest) is abstracted as a parameter H : String → String,
and JS Date parsing (also a platform primitive) as P : String → Option Int,
where none models an invalid date (NaN).  Wall-clock reads and the random
transaction-id suffix are passed in explicitly through an Env record.
The unbounded proof-of-work loop is given explicit fuel; exhausting the
fuel is modelled as the whole operation not completing (Option none).
-/

namespace MediChain

/-- Insertion-ordered association map (JS Map, Solidity mapping). -/
def mapGet {κ α : Type} [DecidableEq κ] (l : List (κ × α)) (k : κ) : Option α :=
  match l with
  | [] => none
  | (k2, v) :: rest => if k2 = k then some v else mapGet rest k

/-- Model of JS Map.prototype.set (keeps the original position on update). -/
def mapSet {κ α : Type} [DecidableEq κ] (l : List (κ × α)) (k : κ) (v : α) : List (κ × α) :=
  match l with
  | [] => [(k, v)]
  | (k2, v2) :: rest => if k2 = k then (k, v) :: rest else (k2, v2) :: mapSet rest k v

/-- Model of JS Map.prototype.has. -/
def mapHas {κ α : Type} [DecidableEq κ] (l : List (κ × α)) (k : κ) : Bool :=
  (mapGet l k).isSome

/-- Model of JS String.prototype.substring(0, n). -/
def takeChars (s : String) (n : Nat) : String := String.mk (s.data.take n)

/-- The proof-of-work target Array(difficulty + 1).join('0'): difficulty many '0' characters. -/
def zeros (n : Nat) : String := String.mk (List.replicate n '0')

/-- JS a || b over possibly-undefined strings; the empty string is falsy. -/
def jsOrStr (a b : Option String) : Option String :=
  match a with
  | some s => if s = "" then b else some s
  | none => b

/-- JS template-literal coercion of a possibly-undefined string. -/
def showOptStr : Option String → String
  | none => "undefined"
  | some s => s

/-- Lower-casing as used by search (String.prototype.toLowerCase). -/
def strToLower (s : String) : String := String.mk (s.data.map Char.toLower)

/-- Whether the second list starts with the first one. -/
def listStartsWith : List Char → List Char → Bool
  | [], _ => true
  | _ :: _, [] => false
  | a :: as, b :: bs => a = b && listStartsWith as bs

/-- Substring occurrence, model of JS String.prototype.includes. -/
def hasSub (needle : List Char) : List Char → Bool
  | [] => listStartsWith needle []
  | c :: rest => listStartsWith needle (c :: rest) || hasSub needle rest

/-- hay.includes(needle) on strings. -/
def strIncludes (hay needle : String) : Bool := hasSub needle.data hay.data

/-- Payload committed into a block (this.data), one constructor per payload
shape appearing in src/blockchain.js. -/
inductive BlockData where
  | genesis (message : String)
  | registration (batchNumber : String) (medicineName manufacturerId : Option String) (txHash : String)
  | verification (passed : Bool) (batchNumber : String) (txHash : String)
  | transfer (batchNumber stage actor : String) (txHash : String)
  | alert (batchNumber reason : String) (txHash : String)
  deriving DecidableEq, Repr

/-- JSON string literal (escaping elided; irrelevant under the abstract digest). -/
def jstr (s : String) : String := "\"" ++ s ++ "\""

def jfield (name val : String) : String := jstr name ++ ":" ++ jstr val

/-- Wrap a JSON object body in braces. -/
def jobj (body : String) : String := "\x7b" ++ body ++ "\x7d"

/-- JSON.stringify drops keys whose value is undefined. -/
def joptField (name : String) : Option String → String
  | none => ""
  | some s => "," ++ jfield name s

/-- Model of JSON.stringify on a block payload. -/
def stringifyBlockData : BlockData → String
  | .genesis msg => jobj (jfield "type" "genesis" ++ "," ++ jfield "message" msg)
  | .registration b mn mi tx =>
      jobj (jfield "type" "medicine_registration" ++ "," ++ jfield "batchNumber" b ++
        joptField "medicineName" mn ++ joptField "manufacturerId" mi ++ "," ++ jfield "txHash" tx)
  | .verification passed b tx =>
      jobj (jfield "type" (if passed then "verification_passed" else "verification_failed") ++
        "," ++ jfield "batchNumber" b ++ "," ++ jfield "txHash" tx)
  | .transfer b stage actor tx =>
      jobj (jfield "type" "supply_chain_transfer" ++ "," ++ jfield "batchNumber" b ++ "," ++
        jfield "stage" stage ++ "," ++ jfield "actor" actor ++ "," ++ jfield "txHash" tx)
  | .alert b reason tx =>
      jobj (jfield "type" "counterfeit_alert" ++ "," ++ jfield "batchNumber" b ++ "," ++
        jfield "reason" reason ++ "," ++ jfield "txHash" tx)

/-- A block of the hash-linked log (class Block). -/
structure Block where
  index : Nat
  timestamp : String
  data : BlockData
  previousHash : String
  hash : String
  nonce : Nat
  deriving DecidableEq, Repr

/-- Digest input of Block.calculateHash: index + previousHash + timestamp +
JSON.stringify(data) + nonce, with JS number-to-string coercion. -/
def hashInput (index : Nat) (previousHash timestamp : String) (data : BlockData) (nonce : Nat) : String :=
  toString index ++ previousHash ++ timestamp ++ stringifyBlockData data ++ toString nonce

def calcHash (H : String → String) (index : Nat) (previousHash timestamp : String)
    (data : BlockData) (nonce : Nat) : String :=
  H (hashInput index previousHash timestamp data nonce)

/-- Block.calculateHash over the block's own stored fields. -/
def calculateHash (H : String → String) (b : Block) : String :=
  calcHash H b.index b.previousHash b.timestamp b.data b.nonce

/-- The while loop of Block.mineBlock: test the current hash, and on failure
increment the nonce and recompute the digest.  Fuel bounds the search. -/
def mineLoop (H : String → String) (index : Nat) (previousHash timestamp : String)
    (data : BlockData) (difficulty : Nat) : Nat → Nat → String → Option (Nat × String)
  | 0, nonce, h => if takeChars h difficulty = zeros difficulty then some (nonce, h) else none
  | fuel + 1, nonce, h =>
    if takeChars h difficulty = zeros difficulty then some (nonce, h)
    else mineLoop H index previousHash timestamp data difficulty fuel (nonce + 1)
      (calcHash H index previousHash timestamp data (nonce + 1))

/-- Block.mineBlock(difficulty), starting from the block's stored nonce and hash. -/
def mineBlock (H : String → String) (difficulty fuel : Nat) (b : Block) : Option Block :=
  (mineLoop H b.index b.previousHash b.timestamp b.data difficulty fuel b.nonce b.hash).map
    (fun p => { b with nonce := p.1, hash := p.2 })

/-- The Block constructor: hash starts empty and nonce at 0. -/
def newBlock (index : Nat) (timestamp : String) (data : BlockData) (previousHash : String) : Block :=
  { index := index, timestamp := timestamp, data := data, previousHash := previousHash,
    hash := "", nonce := 0 }

/-- Transaction payloads (tx.data), one constructor per shape in the source. -/
inductive TxData where
  | registration (batchNumber : String) (medicineName manufacturerId : Option String)
  | verificationNF (batchNumber result reason : String)
  | verification (batchNumber : String) (medicineName : Option String) (result : String)
  | transfer (batchNumber stage actor location : String)
  | alert (batchNumber reason : String)
  deriving DecidableEq, Repr

/-- Model of JSON.stringify on a transaction payload. -/
def stringifyTxData : TxData → String
  | .registration b mn mi =>
      jobj (jfield "batchNumber" b ++ joptField "medicineName" mn ++ joptField "manufacturerId" mi)
  | .verificationNF b res reason =>
      jobj (jfield "batchNumber" b ++ "," ++ jfield "result" res ++ "," ++ jfield "reason" reason)
  | .verification b mn res =>
      jobj (jfield "batchNumber" b ++ joptField "medicineName" mn ++ "," ++ jfield "result" res)
  | .transfer b stage actor location =>
      jobj (jfield "batchNumber" b ++ "," ++ jfield "stage" stage ++ "," ++
        jfield "actor" actor ++ "," ++ jfield "location" location)
  | .alert b reason =>
      jobj (jfield "batchNumber" b ++ "," ++ jfield "reason" reason)

/-- class Transaction; the JS fields from/to are called fromId/toId here. -/
structure Transaction where
  id : String
  type : String
  data : TxData
  fromId : Option String
  toId : Option String
  timestamp : String
  hash : String
  blockNumber : Option Nat
  status : String
  deriving DecidableEq, Repr

/-- Per-call environment: wall clock (ms and ISO form), the random id
suffixes consumed by the call, and mining fuel for each block append. -/
structure Env where
  nowMs : Int
  nowIso : String
  rand1 : String
  rand2 : String
  fuel : Nat
  deriving DecidableEq, Repr

/-- The Transaction constructor. -/
def mkTransaction (env : Env) (rand type : String) (data : TxData)
    (fromId toId : Option String) : Transaction :=
  { id := "tx_" ++ toString env.nowMs ++ "_" ++ rand, type := type, data := data,
    fromId := fromId, toId := toId, timestamp := env.nowIso, hash := "",
    blockNumber := none, status := "pending" }

/-- Transaction.generateHash. -/
def generateHash (H : String → String) (t : Transaction) : Transaction :=
  { t with hash := "0x" ++ H (t.id ++ t.type ++ stringifyTxData t.data ++ t.timestamp) }

/-- One supply-chain checkpoint. -/
structure Checkpoint where
  stage : String
  actor : Option String
  location : String
  timestamp : String
  txHash : String
  deriving DecidableEq, Repr

/-- One entry of medicine.verifications. -/
structure VerifEntry where
  timestamp : String
  result : String
  deriving DecidableEq, Repr

/-- Caller-supplied registration payload (the object built in public/app.js);
the engine itself never validates these fields, so the string fields that a
caller may omit are Options. -/
structure MedicineData where
  medicineName : Option String
  batchNumber : String
  manufacturerId : Option String
  manufacturerName : Option String
  mfgDate : String
  expiryDate : Option String
  medType : String
  quantity : Nat
  composition : String
  shipmentDest : String
  price : String
  deriving DecidableEq, Repr

/-- Stored medicine record: the spread caller payload plus the fields added
by registerMedicine. -/
structure Medicine where
  medicineName : Option String
  batchNumber : String
  manufacturerId : Option String
  manufacturerName : Option String
  mfgDate : String
  expiryDate : Option String
  medType : String
  quantity : Nat
  composition : String
  shipmentDest : String
  price : String
  registeredAt : String
  status : String
  scanCount : Nat
  supplyChain : List Checkpoint
  verifications : List VerifEntry
  blockHash : Option String
  blockNumber : Option Nat
  deriving DecidableEq, Repr

/-- Counterfeit alert record. -/
structure Alert where
  id : String
  batchNumber : String
  reason : String
  timestamp : String
  severity : String
  status : String
  deriving DecidableEq, Repr

/-- One scan-history entry (two shapes in the source; absent keys are none). -/
structure ScanEntry where
  batchNumber : String
  medicineName : Option String
  result : String
  timestamp : String
  reason : Option String
  deriving DecidableEq, Repr

/-- The engine state (class MediChainBlockchain); the listener registry is
observational only and is not part of the state. -/
structure EngineState where
  chain : List Block
  pendingTransactions : List Transaction
  medicines : List (String × Medicine)
  transactions : List Transaction
  alerts : List Alert
  scanHistory : List ScanEntry
  difficulty : Nat
  deriving DecidableEq, Repr

/-- createGenesisBlock: hash computed directly, no mining. -/
def createGenesisBlock (H : String → String) (ts : String) : Block :=
  let b := newBlock 0 ts (.genesis "MediChain Genesis Block") "0"
  { b with hash := calculateHash H b }

/-- A freshly constructed engine after its first createGenesisBlock. -/
def initState (H : String → String) (ts : String) : EngineState :=
  { chain := [createGenesisBlock H ts], pendingTransactions := [], medicines := [],
    transactions := [], alerts := [], scanHistory := [], difficulty := 2 }

/-- addBlock: reference the current head (chain[length - 1]), mine, append. -/
def addBlock (H : String → String) (env : Env) (data : BlockData) (st : EngineState) :
    Option (Block × EngineState) :=
  match st.chain.getLast? with
  | none => none
  | some latest =>
    match mineBlock H st.difficulty env.fuel (newBlock st.chain.length env.nowIso data latest.hash) with
    | none => none
    | some mined => some (mined, { st with chain := st.chain ++ [mined] })

/-- JS: new Date(medicine.expiryDate) > new Date(); an invalid or missing
date gives NaN, which compares false. -/
def expiryOk (P : String → Option Int) (nowMs : Int) (e : Option String) : Bool :=
  match e with
  | none => false
  | some s =>
    match P s with
    | none => false
    | some t => nowMs < t

/-- The medicine record built by registerMedicine before the block exists. -/
def mkMedicineRecord (env : Env) (d : MedicineData) : Medicine :=
  { medicineName := d.medicineName, batchNumber := d.batchNumber,
    manufacturerId := d.manufacturerId, manufacturerName := d.manufacturerName,
    mfgDate := d.mfgDate, expiryDate := d.expiryDate, medType := d.medType,
    quantity := d.quantity, composition := d.composition, shipmentDest := d.shipmentDest,
    price := d.price, registeredAt := env.nowIso, status := "active", scanCount := 0,
    supplyChain := [{ stage := "Manufactured", actor := jsOrStr d.manufacturerName d.manufacturerId,
                      location := "Manufacturing Plant", timestamp := env.nowIso, txHash := "" }],
    verifications := [], blockHash := none, blockNumber := none }

structure RegSuccess where
  medicine : Medicine
  transaction : Transaction
  block : Block
  deriving DecidableEq, Repr

/-- registerMedicine. The duplicate check precedes every mutation, so a
duplicate returns the error with the state untouched. -/
def registerMedicine (H : String → String) (env : Env) (d : MedicineData) (st : EngineState) :
    Option (Except String RegSuccess × EngineState) :=
  if mapHas st.medicines d.batchNumber then
    some (.error ("Batch " ++ d.batchNumber ++ " already registered on blockchain"), st)
  else
    let med0 := mkMedicineRecord env d
    let tx := generateHash H (mkTransaction env env.rand1 "registration"
      (.registration d.batchNumber d.medicineName d.manufacturerId) d.manufacturerId none)
    match addBlock H env (.registration d.batchNumber d.medicineName d.manufacturerId tx.hash) st with
    | none => none
    | some (blk, st1) =>
      let tx2 := { tx with blockNumber := some blk.index, status := "confirmed" }
      let sc2 : List Checkpoint :=
        match med0.supplyChain with
        | [] => []
        | c :: rest => { c with txHash := tx2.hash } :: rest
      let med :=
        { med0 with supplyChain := sc2, blockHash := some blk.hash, blockNumber := some blk.index }
      some (.ok { medicine := med, transaction := tx2, block := blk },
        { st1 with medicines := mapSet st1.medicines d.batchNumber med,
                   transactions := st1.transactions ++ [tx2] })

/-- createAlert: push the alert, then log an alert transaction and block. -/
def createAlert (H : String → String) (env : Env) (batchNumber reason : String) (st : EngineState) :
    Option (Alert × EngineState) :=
  let alert : Alert :=
    { id := "alert_" ++ toString env.nowMs, batchNumber := batchNumber,
      reason := reason, timestamp := env.nowIso, severity := "high", status := "active" }
  let st0 := { st with alerts := st.alerts ++ [alert] }
  let tx := generateHash H (mkTransaction env env.rand1 "alert" (.alert batchNumber reason)
    (some "system") none)
  match addBlock H env (.alert batchNumber reason tx.hash) st0 with
  | none => none
  | some (blk, st1) =>
    let tx2 := { tx with blockNumber := some blk.index, status := "confirmed" }
    some (alert, { st1 with transactions := st1.transactions ++ [tx2] })

/-- One named verification check. -/
structure Check where
  name : String
  passed : Bool
  detail : String
  deriving DecidableEq, Repr

structure VerifyResult where
  isAuthentic : Bool
  checks : List Check
  medicine : Option Medicine
  batchNumber : String
  deriving DecidableEq, Repr

/-- verifyMedicine: hard stop only on absence (check 1); otherwise all six
checks are evaluated and aggregated. -/
def verifyMedicine (H : String → String) (P : String → Option Int) (env : Env)
    (batchNumber : String) (st : EngineState) : Option (VerifyResult × EngineState) :=
  match mapGet st.medicines batchNumber with
  | none =>
    let checks : List Check :=
      [{ name := "Blockchain Record Exists", passed := false, detail := "NOT found on blockchain" }]
    match createAlert H env batchNumber "Medicine not found on blockchain" st with
    | none => none
    | some (_, st1) =>
      let tx := generateHash H (mkTransaction env env.rand2 "verification"
        (.verificationNF batchNumber "COUNTERFEIT" "Not found on blockchain") (some "verifier") none)
      match addBlock H env (.verification false batchNumber tx.hash) st1 with
      | none => none
      | some (blk, st2) =>
        let tx2 := { tx with blockNumber := some blk.index, status := "confirmed" }
        let sentry : ScanEntry :=
          { batchNumber := batchNumber, medicineName := none, result := "counterfeit",
            timestamp := env.nowIso, reason := some "Not found on blockchain" }
        some ({ isAuthentic := false, checks := checks, medicine := none, batchNumber := batchNumber },
          { st2 with transactions := st2.transactions ++ [tx2],
                     scanHistory := st2.scanHistory ++ [sentry] })
  | some med =>
    let expOk := expiryOk P env.nowMs med.expiryDate
    let soldOk : Bool := med.status != "sold"
    let refOk : Bool :=
      match med.blockNumber with
      | none => false
      | some i => decide (i < st.chain.length)
    let check3 : Check :=
      if expOk then
        { name := "Medicine Not Expired", passed := true, detail := "Expires: " ++ showOptStr med.expiryDate }
      else
        { name := "Medicine Not Expired", passed := false, detail := "EXPIRED on " ++ showOptStr med.expiryDate }
    let check4 : Check :=
      if soldOk then
        { name := "Not Previously Sold", passed := true, detail := "Status: " ++ med.status }
      else
        { name := "Not Previously Sold", passed := false, detail := "Medicine marked as SOLD" }
    let check5 : Check :=
      if med.supplyChain.length > 0 then
        { name := "Supply Chain Valid", passed := true,
          detail := toString med.supplyChain.length ++ " checkpoint(s)" }
      else
        { name := "Supply Chain Valid", passed := false, detail := "No supply chain data" }
    let check6 : Check :=
      match med.blockNumber with
      | some i =>
        if i < st.chain.length then
          { name := "Blockchain Integrity", passed := true, detail := "Block #" ++ toString i ++ " verified" }
        else
          { name := "Blockchain Integrity", passed := false, detail := "Block reference invalid" }
      | none => { name := "Blockchain Integrity", passed := false, detail := "Block reference invalid" }
    let checks : List Check :=
      [{ name := "Blockchain Record Exists", passed := true, detail := "Medicine found on blockchain" },
       { name := "Batch Number Matches", passed := true, detail := "Batch: " ++ batchNumber },
       check3, check4, check5, check6]
    let isAuthentic := expOk && soldOk && refOk
    let ventry : VerifEntry :=
      { timestamp := env.nowIso, result := if isAuthentic then "authentic" else "suspicious" }
    let med2 :=
      { med with scanCount := med.scanCount + 1, verifications := med.verifications ++ [ventry] }
    let st1 := { st with medicines := mapSet st.medicines batchNumber med2 }
    let tx := generateHash H (mkTransaction env env.rand2 "verification"
      (.verification batchNumber med.medicineName (if isAuthentic then "AUTHENTIC" else "SUSPICIOUS"))
      (some "verifier") none)
    match addBlock H env (.verification isAuthentic batchNumber tx.hash) st1 with
    | none => none
    | some (blk, st2) =>
      let tx2 := { tx with blockNumber := some blk.index, status := "confirmed" }
      let sentry : ScanEntry :=
        { batchNumber := batchNumber, medicineName := med.medicineName,
          result := if isAuthentic then "authentic" else "counterfeit",
          timestamp := env.nowIso, reason := none }
      let st3 :=
        { st2 with transactions := st2.transactions ++ [tx2],
                   scanHistory := st2.scanHistory ++ [sentry] }
      if isAuthentic then
        some ({ isAuthentic := isAuthentic, checks := checks, medicine := some med2,
                batchNumber := batchNumber }, st3)
      else
        match createAlert H env batchNumber "Verification checks failed" st3 with
        | none => none
        | some (_, st4) =>
          some ({ isAuthentic := isAuthentic, checks := checks, medicine := some med2,
                  batchNumber := batchNumber }, st4)

structure TransferSuccess where
  medicine : Medicine
  transaction : Transaction
  deriving DecidableEq, Repr

/-- transferMedicine. -/
def transferMedicine (H : String → String) (env : Env) (batchNumber stage actor location : String)
    (st : EngineState) : Option (Except String TransferSuccess × EngineState) :=
  match mapGet st.medicines batchNumber with
  | none => some (.error "Medicine not found", st)
  | some med =>
    let tx := generateHash H (mkTransaction env env.rand1 "transfer"
      (.transfer batchNumber stage actor location) (some actor) none)
    match addBlock H env (.transfer batchNumber stage actor tx.hash) st with
    | none => none
    | some (blk, st1) =>
      let tx2 := { tx with blockNumber := some blk.index, status := "confirmed" }
      let cp : Checkpoint :=
        { stage := stage, actor := some actor, location := location,
          timestamp := env.nowIso, txHash := tx2.hash }
      let med2 := { med with supplyChain := med.supplyChain ++ [cp] }
      some (.ok { medicine := med2, transaction := tx2 },
        { st1 with transactions := st1.transactions ++ [tx2],
                   medicines := mapSet st1.medicines batchNumber med2 })

/-- The loop body of isChainValid, carrying the previous block. -/
def chainValidFrom (H : String → String) : Block → List Block → Bool
  | _, [] => true
  | prev, b :: rest =>
    (b.hash == calculateHash H b) && (b.previousHash == prev.hash) && chainValidFrom H b rest

/-- isChainValid: recompute every digest from stored fields and check linkage,
starting at block 1 (the genesis block is exempt). -/
def isChainValid (H : String → String) (st : EngineState) : Bool :=
  match st.chain with
  | [] => true
  | g :: rest => chainValidFrom H g rest

/-- getMedicine: this.medicines.get(b) || null.  none models the null result. -/
def getMedicine (st : EngineState) (batchNumber : String) : Option Medicine :=
  mapGet st.medicines batchNumber

/-- getAllMedicines: the spread puts the record's own batchNumber field last,
so each entry is just the stored record. -/
def getAllMedicines (st : EngineState) : List Medicine :=
  st.medicines.map (fun p => p.2)

/-- search's per-record predicate; none models the TypeError raised when
medicineName is undefined (manufacturerName is truthiness-guarded). -/
def medMatches (q : String) (m : Medicine) : Option Bool :=
  if strIncludes (strToLower m.batchNumber) q then some true
  else
    match m.medicineName with
    | none => none
    | some n =>
      if strIncludes (strToLower n) q then some true
      else
        match m.manufacturerName with
        | none => some false
        | some mn => some (if mn = "" then false else strIncludes (strToLower mn) q)

/-- Array.prototype.filter, aborting at the first raised TypeError. -/
def searchGo (q : String) : List Medicine → Option (List Medicine)
  | [] => some []
  | m :: rest =>
    match medMatches q m with
    | none => none
    | some b =>
      match searchGo q rest with
      | none => none
      | some r => some (if b then m :: r else r)

/-- search(query): case-insensitive substring search over batch id, name and
manufacturer name; none models a raised TypeError. -/
def search (st : EngineState) (query : String) : Option (List Medicine) :=
  searchGo (strToLower query) (getAllMedicines st)

/-- One public mutating call together with its environment. -/
inductive Op where
  | register (env : Env) (d : MedicineData)
  | verify (env : Env) (batchNumber : String)
  | transfer (env : Env) (batchNumber stage actor location : String)
  | alert (env : Env) (batchNumber reason : String)

/-- Apply one public mutating operation; a thrown precondition error leaves
the state unchanged, while fuel exhaustion aborts the run. -/
def applyOp (H : String → String) (P : String → Option Int) (st : EngineState) :
    Op → Option EngineState
  | .register env d => (registerMedicine H env d st).map (fun p => p.2)
  | .verify env b => (verifyMedicine H P env b st).map (fun p => p.2)
  | .transfer env b s a l => (transferMedicine H env b s a l st).map (fun p => p.2)
  | .alert env b r => (createAlert H env b r st).map (fun p => p.2)

/-- Run a finite sequence of public mutating operations. -/
def runOps (H : String → String) (P : String → Option Int) :
    EngineState → List Op → Option EngineState
  | st, [] => some st
  | st, op :: rest =>
    match applyOp H P st op with
    | none => none
    | some st2 => runOps H P st2 rest

/-! Model of the consensus-runtime twin, src/contracts/MediChain.sol.
A mapping value with exists = false is modelled by absence from the
association list; entries are only ever created with exists = true.  The
optional detail fields set by setMedicineDetails, the distributor/shop
authorization lists, and event emission are omitted: no claim touches them. -/

inductive SolStatus where
  | active
  | sold
  | expired
  | flagged
  deriving DecidableEq, Repr

structure SolMedicine where
  id : Nat
  medicineName : String
  batchNumber : String
  manufacturerId : String
  manufacturerName : String
  mfgDate : String
  expiryDate : String
  status : SolStatus
  registeredBy : String
  registeredAt : Nat
  scanCount : Nat
  deriving DecidableEq, Repr

/-- One SupplyChainEntry; the stage enum is modelled by its ordinal. -/
structure SolChainEntry where
  stage : Nat
  actor : String
  location : String
  timestamp : Nat
  updatedBy : String
  deriving DecidableEq, Repr

structure SolVerifRecord where
  verifier : String
  timestamp : Nat
  isAuthentic : Bool
  details : String
  deriving DecidableEq, Repr

structure SolAlert where
  id : Nat
  batchNumber : String
  reason : String
  reportedBy : String
  timestamp : Nat
  resolved : Bool
  deriving DecidableEq, Repr

structure SolState where
  owner : String
  medicineCount : Nat
  verificationCount : Nat
  alertCount : Nat
  medicines : List (String × SolMedicine)
  supplyChain : List (String × List SolChainEntry)
  verifications : List (String × List SolVerifRecord)
  alerts : List (Nat × SolAlert)
  authorizedManufacturers : List String
  allBatchNumbers : List String
  deriving DecidableEq, Repr

/-- The contract constructor. -/
def solInit (sender : String) : SolState :=
  { owner := sender, medicineCount := 0, verificationCount := 0, alertCount := 0,
    medicines := [], supplyChain := [], verifications := [], alerts := [],
    authorizedManufacturers := [sender], allBatchNumbers := [] }

/-- Push onto an array-valued mapping entry (default empty array). -/
def pushEntry {α : Type} (l : List (String × List α)) (k : String) (v : α) :
    List (String × List α) :=
  mapSet l k ((mapGet l k).getD [] ++ [v])

/-- MediChain.registerMedicine: the onlyAuthorizedManufacturer modifier runs
first, then the three require clauses in source order. -/
def solRegisterMedicine (sender : String) (now : Nat)
    (medicineName batchNumber manufacturerId manufacturerName mfgDate expiryDate : String)
    (s : SolState) : Except String SolState :=
  if sender ∈ s.authorizedManufacturers ∨ sender = s.owner then
    if mapHas s.medicines batchNumber then .error "Batch number already registered"
    else if batchNumber.length = 0 then .error "Batch number cannot be empty"
    else if medicineName.length = 0 then .error "Medicine name cannot be empty"
    else
      let cnt := s.medicineCount + 1
      let med : SolMedicine :=
        { id := cnt, medicineName := medicineName, batchNumber := batchNumber,
          manufacturerId := manufacturerId, manufacturerName := manufacturerName,
          mfgDate := mfgDate, expiryDate := expiryDate, status := .active,
          registeredBy := sender, registeredAt := now, scanCount := 0 }
      let entry : SolChainEntry :=
        { stage := 0, actor := manufacturerName, location := "Manufacturing Plant",
          timestamp := now, updatedBy := sender }
      .ok { s with medicineCount := cnt,
                   medicines := mapSet s.medicines batchNumber med,
                   allBatchNumbers := s.allBatchNumbers ++ [batchNumber],
                   supplyChain := pushEntry s.supplyChain batchNumber entry }
  else .error "Not an authorized manufacturer"

structure SolVerdict where
  isAuthentic : Bool
  details : String
  deriving DecidableEq, Repr

/-- MediChain.verifyMedicine: inauthentic iff absent, flagged, or sold. -/
def solVerifyMedicine (sender : String) (now : Nat) (batchNumber : String) (s : SolState) :
    SolVerdict × SolState :=
  let s0 := { s with verificationCount := s.verificationCount + 1 }
  match mapGet s0.medicines batchNumber with
  | none =>
    let cnt := s0.alertCount + 1
    let alert : SolAlert :=
      { id := cnt, batchNumber := batchNumber, reason := "Medicine not found on blockchain",
        reportedBy := sender, timestamp := now, resolved := false }
    let rec1 : SolVerifRecord :=
      { verifier := sender, timestamp := now, isAuthentic := false,
        details := "NOT FOUND on blockchain" }
    ({ isAuthentic := false,
       details := "WARNING: Medicine NOT found on blockchain. Possible counterfeit!" },
      { s0 with alertCount := cnt, alerts := mapSet s0.alerts cnt alert,
                verifications := pushEntry s0.verifications batchNumber rec1 })
  | some med =>
    let med2 := { med with scanCount := med.scanCount + 1 }
    let s1 := { s0 with medicines := mapSet s0.medicines batchNumber med2 }
    if med2.status = .flagged then
      let rec1 : SolVerifRecord :=
        { verifier := sender, timestamp := now, isAuthentic := false,
          details := "Medicine FLAGGED as suspicious" }
      ({ isAuthentic := false, details := "WARNING: Medicine has been FLAGGED as suspicious!" },
        { s1 with verifications := pushEntry s1.verifications batchNumber rec1 })
    else if med2.status = .sold then
      let rec1 : SolVerifRecord :=
        { verifier := sender, timestamp := now, isAuthentic := false,
          details := "Medicine already marked as SOLD" }
      ({ isAuthentic := false,
         details := "WARNING: Medicine already marked as SOLD. Possible duplicate!" },
        { s1 with verifications := pushEntry s1.verifications batchNumber rec1 })
    else
      let rec1 : SolVerifRecord :=
        { verifier := sender, timestamp := now, isAuthentic := true,
          details := "All verification checks passed" }
      ({ isAuthentic := true, details := "Medicine is AUTHENTIC. All blockchain checks passed." },
        { s1 with verifications := pushEntry s1.verifications batchNumber rec1 })

/-- MediChain.getMedicine: require(exists, "Medicine not found"). -/
def solGetMedicine (s : SolState) (batchNumber : String) : Except String SolMedicine :=
  match mapGet s.medicines batchNumber with
  | none => .error "Medicine not found"
  | some m => .ok m

/-- MediChain.markAsSold. -/
def solMarkAsSold (batchNumber : String) (s : SolState) : Except String SolState :=
  match mapGet s.medicines batchNumber with
  | none => .error "Medicine not found on blockchain"
  | some med =>
    .ok { s with medicines := mapSet s.medicines batchNumber { med with status := .sold } }

/-- Correspondence of one reference-engine status string with one contract
status value. -/
def statusCorr : String → SolStatus → Bool
  | "active", .active => true
  | "sold", .sold => true
  | "expired", .expired => true
  | "flagged", .flagged => true
  | _, _ => false

/-- Pointwise correspondence of the two medicine stores: same batch keys in
the same order, with corresponding statuses. -/
def corrList : List (String × Medicine) → List (String × SolMedicine) → Bool
  | [], [] => true
  | (k1, m) :: r1, (k2, sm) :: r2 => (k1 == k2) && statusCorr m.status sm.status && corrList r1 r2
  | _, _ => false

/-! Persistence.  save() writes JSON.stringify of the five state components
and the loader reads them back with JSON.parse; stringify followed by parse
is the identity on the JSON tree, so persistence is modelled at the level
of the tree itself.  JSON.stringify drops object keys whose value is
undefined and keeps explicit nulls, which the encoders below mirror. -/

inductive Json where
  | null
  | str (s : String)
  | num (n : Nat)
  | arr (xs : List Json)
  | obj (fields : List (String × Json))

def jLookup (fields : List (String × Json)) (k : String) : Option Json :=
  mapGet fields k

def asStr : Json → Option String
  | .str s => some s
  | _ => none

def asNat : Json → Option Nat
  | .num n => some n
  | _ => none

def asArr : Json → Option (List Json)
  | .arr xs => some xs
  | _ => none

def asObj : Json → Option (List (String × Json))
  | .obj fields => some fields
  | _ => none

def reqStr (fields : List (String × Json)) (k : String) : Option String :=
  (jLookup fields k).bind asStr

def reqNat (fields : List (String × Json)) (k : String) : Option Nat :=
  (jLookup fields k).bind asNat

/-- A key that may be absent (dropped undefined): absent decodes to none. -/
def optStr (fields : List (String × Json)) (k : String) : Option (Option String) :=
  match jLookup fields k with
  | none => some none
  | some (.str s) => some (some s)
  | some _ => none

/-- A numeric key that may be absent (dropped undefined). -/
def optNat (fields : List (String × Json)) (k : String) : Option (Option Nat) :=
  match jLookup fields k with
  | none => some none
  | some (.num n) => some (some n)
  | some _ => none

/-- A key whose value may be an explicit null (and is kept by stringify). -/
def nullableStr (fields : List (String × Json)) (k : String) : Option (Option String) :=
  match jLookup fields k with
  | none => some none
  | some .null => some none
  | some (.str s) => some (some s)
  | some _ => none

def nullableNat (fields : List (String × Json)) (k : String) : Option (Option Nat) :=
  match jLookup fields k with
  | none => some none
  | some .null => some none
  | some (.num n) => some (some n)
  | some _ => none

/-- Emit a key only when the value is defined. -/
def encOptStr (k : String) : Option String → List (String × Json)
  | none => []
  | some s => [(k, .str s)]

def encOptNat (k : String) : Option Nat → List (String × Json)
  | none => []
  | some n => [(k, .num n)]

/-- Emit none as an explicit null. -/
def encNullStr : Option String → Json
  | none => .null
  | some s => .str s

def encNullNat : Option Nat → Json
  | none => .null
  | some n => .num n

def encodeBlockData : BlockData → Json
  | .genesis msg => .obj [("type", .str "genesis"), ("message", .str msg)]
  | .registration b mn mi tx =>
      .obj ([("type", .str "medicine_registration"), ("batchNumber", .str b)] ++
        encOptStr "medicineName" mn ++ encOptStr "manufacturerId" mi ++ [("txHash", .str tx)])
  | .verification passed b tx =>
      .obj [("type", .str (if passed then "verification_passed" else "verification_failed")),
        ("batchNumber", .str b), ("txHash", .str tx)]
  | .transfer b stage actor tx =>
      .obj [("type", .str "supply_chain_transfer"), ("batchNumber", .str b),
        ("stage", .str stage), ("actor", .str actor), ("txHash", .str tx)]
  | .alert b reason tx =>
      .obj [("type", .str "counterfeit_alert"), ("batchNumber", .str b),
        ("reason", .str reason), ("txHash", .str tx)]

def decodeBlockData (j : Json) : Option BlockData := do
  let f ← asObj j
  let t ← reqStr f "type"
  if t = "genesis" then do
    let msg ← reqStr f "message"
    pure (.genesis msg)
  else if t = "medicine_registration" then do
    let b ← reqStr f "batchNumber"
    let mn ← optStr f "medicineName"
    let mi ← optStr f "manufacturerId"
    let tx ← reqStr f "txHash"
    pure (.registration b mn mi tx)
  else if t = "verification_passed" then do
    let b ← reqStr f "batchNumber"
    let tx ← reqStr f "txHash"
    pure (.verification true b tx)
  else if t = "verification_failed" then do
    let b ← reqStr f "batchNumber"
    let tx ← reqStr f "txHash"
    pure (.verification false b tx)
  else if t = "supply_chain_transfer" then do
    let b ← reqStr f "batchNumber"
    let stage ← reqStr f "stage"
    let actor ← reqStr f "actor"
    let tx ← reqStr f "txHash"
    pure (.transfer b stage actor tx)
  else if t = "counterfeit_alert" then do
    let b ← reqStr f "batchNumber"
    let reason ← reqStr f "reason"
    let tx ← reqStr f "txHash"
    pure (.alert b reason tx)
  else none

def encodeBlock (b : Block) : Json :=
  .obj [("index", .num b.index), ("timestamp", .str b.timestamp), ("data", encodeBlockData b.data),
    ("previousHash", .str b.previousHash), ("hash", .str b.hash), ("nonce", .num b.nonce)]

def decodeBlock (j : Json) : Option Block := do
  let f ← asObj j
  let index ← reqNat f "index"
  let timestamp ← reqStr f "timestamp"
  let dj ← jLookup f "data"
  let data ← decodeBlockData dj
  let previousHash ← reqStr f "previousHash"
  let hash ← reqStr f "hash"
  let nonce ← reqNat f "nonce"
  pure { index := index, timestamp := timestamp, data := data, previousHash := previousHash,
         hash := hash, nonce := nonce }

def encodeTxData : TxData → Json
  | .registration b mn mi =>
      .obj ([("batchNumber", .str b)] ++ encOptStr "medicineName" mn ++
        encOptStr "manufacturerId" mi)
  | .verificationNF b res reason =>
      .obj [("batchNumber", .str b), ("result", .str res), ("reason", .str reason)]
  | .verification b mn res =>
      .obj ([("batchNumber", .str b)] ++ encOptStr "medicineName" mn ++ [("result", .str res)])
  | .transfer b stage actor location =>
      .obj [("batchNumber", .str b), ("stage", .str stage), ("actor", .str actor),
        ("location", .str location)]
  | .alert b reason =>
      .obj [("batchNumber", .str b), ("reason", .str reason)]

/-- The five payload shapes have pairwise distinct key sets, so the shape
is recovered from the present keys. -/
def decodeTxData (j : Json) : Option TxData := do
  let f ← asObj j
  let b ← reqStr f "batchNumber"
  match jLookup f "stage" with
  | some _ => do
    let stage ← reqStr f "stage"
    let actor ← reqStr f "actor"
    let location ← reqStr f "location"
    pure (.transfer b stage actor location)
  | none =>
    match jLookup f "result", jLookup f "reason" with
    | some _, some _ => do
      let res ← reqStr f "result"
      let reason ← reqStr f "reason"
      pure (.verificationNF b res reason)
    | some _, none => do
      let mn ← optStr f "medicineName"
      let res ← reqStr f "result"
      pure (.verification b mn res)
    | none, some _ => do
      let reason ← reqStr f "reason"
      pure (.alert b reason)
    | none, none => do
      let mn ← optStr f "medicineName"
      let mi ← optStr f "manufacturerId"
      pure (.registration b mn mi)

def encodeTransaction (t : Transaction) : Json :=
  .obj ([("id", .str t.id), ("type", .str t.type), ("data", encodeTxData t.data)] ++
    encOptStr "from" t.fromId ++
    [("to", encNullStr t.toId), ("timestamp", .str t.timestamp), ("hash", .str t.hash),
     ("blockNumber", encNullNat t.blockNumber), ("status", .str t.status)])

def decodeTransaction (j : Json) : Option Transaction := do
  let f ← asObj j
  let id ← reqStr f "id"
  let type ← reqStr f "type"
  let dj ← jLookup f "data"
  let data ← decodeTxData dj
  let fromId ← optStr f "from"
  let toId ← nullableStr f "to"
  let timestamp ← reqStr f "timestamp"
  let hash ← reqStr f "hash"
  let blockNumber ← nullableNat f "blockNumber"
  let status ← reqStr f "status"
  pure { id := id, type := type, data := data, fromId := fromId, toId := toId,
         timestamp := timestamp, hash := hash, blockNumber := blockNumber, status := status }

def encodeCheckpoint (c : Checkpoint) : Json :=
  .obj ([("stage", .str c.stage)] ++ encOptStr "actor" c.actor ++
    [("location", .str c.location), ("timestamp", .str c.timestamp), ("txHash", .str c.txHash)])

def decodeCheckpoint (j : Json) : Option Checkpoint := do
  let f ← asObj j
  let stage ← reqStr f "stage"
  let actor ← optStr f "actor"
  let location ← reqStr f "location"
  let timestamp ← reqStr f "timestamp"
  let txHash ← reqStr f "txHash"
  pure { stage := stage, actor := actor, location := location, timestamp := timestamp,
         txHash := txHash }

def encodeVerifEntry (v : VerifEntry) : Json :=
  .obj [("timestamp", .str v.timestamp), ("result", .str v.result)]

def decodeVerifEntry (j : Json) : Option VerifEntry := do
  let f ← asObj j
  let timestamp ← reqStr f "timestamp"
  let result ← reqStr f "result"
  pure { timestamp := timestamp, result := result }

def encodeAlert (a : Alert) : Json :=
  .obj [("id", .str a.id), ("batchNumber", .str a.batchNumber), ("reason", .str a.reason),
    ("timestamp", .str a.timestamp), ("severity", .str a.severity), ("status", .str a.status)]

def decodeAlert (j : Json) : Option Alert := do
  let f ← asObj j
  let id ← reqStr f "id"
  let batchNumber ← reqStr f "batchNumber"
  let reason ← reqStr f "reason"
  let timestamp ← reqStr f "timestamp"
  let severity ← reqStr f "severity"
  let status ← reqStr f "status"
  pure { id := id, batchNumber := batchNumber, reason := reason, timestamp := timestamp,
         severity := severity, status := status }

def encodeScanEntry (s : ScanEntry) : Json :=
  .obj ([("batchNumber", .str s.batchNumber)] ++ encOptStr "medicineName" s.medicineName ++
    [("result", .str s.result), ("timestamp", .str s.timestamp)] ++ encOptStr "reason" s.reason)

def decodeScanEntry (j : Json) : Option ScanEntry := do
  let f ← asObj j
  let batchNumber ← reqStr f "batchNumber"
  let medicineName ← optStr f "medicineName"
  let result ← reqStr f "result"
  let timestamp ← reqStr f "timestamp"
  let reason ← optStr f "reason"
  pure { batchNumber := batchNumber, medicineName := medicineName, result := result,
         timestamp := timestamp, reason := reason }

def encodeMedicine (m : Medicine) : Json :=
  .obj (encOptStr "medicineName" m.medicineName ++ [("batchNumber", .str m.batchNumber)] ++
    encOptStr "manufacturerId" m.manufacturerId ++ encOptStr "manufacturerName" m.manufacturerName ++
    [("mfgDate", .str m.mfgDate)] ++ encOptStr "expiryDate" m.expiryDate ++
    [("type", .str m.medType), ("quantity", .num m.quantity),
     ("composition", .str m.composition), ("shipmentDest", .str m.shipmentDest),
     ("price", .str m.price)] ++
    [("registeredAt", .str m.registeredAt), ("status", .str m.status),
     ("scanCount", .num m.scanCount),
     ("supplyChain", .arr (m.supplyChain.map encodeCheckpoint)),
     ("verifications", .arr (m.verifications.map encodeVerifEntry))] ++
    encOptStr "blockHash" m.blockHash ++ encOptNat "blockNumber" m.blockNumber)

/-- Decode each element of a JSON array, failing on the first failure. -/
def decodeList {α : Type} (dec : Json → Option α) : List Json → Option (List α)
  | [] => some []
  | j :: rest =>
    match dec j with
    | none => none
    | some x =>
      match decodeList dec rest with
      | none => none
      | some xs => some (x :: xs)

/-- Decode an array of elements with the given element decoder. -/
def decodeArrOf {α : Type} (dec : Json → Option α) (j : Json) : Option (List α) :=
  (asArr j).bind (fun l => decodeList dec l)

def decodeMedicine (j : Json) : Option Medicine :=
  match asObj j with
  | none => none
  | some f =>
    match optStr f "medicineName", reqStr f "batchNumber", optStr f "manufacturerId",
      optStr f "manufacturerName", reqStr f "mfgDate", optStr f "expiryDate",
      reqStr f "type", reqNat f "quantity", reqStr f "composition",
      reqStr f "shipmentDest", reqStr f "price", reqStr f "registeredAt",
      reqStr f "status", reqNat f "scanCount",
      optStr f "blockHash", optNat f "blockNumber" with
    | some medicineName, some batchNumber, some manufacturerId, some manufacturerName,
      some mfgDate, some expiryDate, some medType, some quantity, some composition,
      some shipmentDest, some price, some registeredAt, some status, some scanCount,
      some blockHash, some blockNumber =>
      ((jLookup f "supplyChain").bind (decodeArrOf decodeCheckpoint)).bind (fun supplyChain =>
        ((jLookup f "verifications").bind (decodeArrOf decodeVerifEntry)).bind
          (fun verifications =>
            some { medicineName := medicineName, batchNumber := batchNumber,
                   manufacturerId := manufacturerId, manufacturerName := manufacturerName,
                   mfgDate := mfgDate, expiryDate := expiryDate, medType := medType,
                   quantity := quantity, composition := composition,
                   shipmentDest := shipmentDest, price := price,
                   registeredAt := registeredAt, status := status, scanCount := scanCount,
                   supplyChain := supplyChain, verifications := verifications,
                   blockHash := blockHash, blockNumber := blockNumber }))
    | _, _, _, _, _, _, _, _, _, _, _, _, _, _, _, _ => none

/-- One saved medicines entry, Array.from(map.entries()) producing [key, value]. -/
def encodeMedEntry (p : String × Medicine) : Json :=
  .arr [.str p.1, encodeMedicine p.2]

def decodeMedEntry (j : Json) : Option (String × Medicine) :=
  match j with
  | .arr [.str k, v] => (decodeMedicine v).map (fun m => (k, m))
  | _ => none

/-- save(): the serialized document. -/
def encodeState (st : EngineState) : Json :=
  .obj [("chain", .arr (st.chain.map encodeBlock)),
        ("medicines", .arr (st.medicines.map encodeMedEntry)),
        ("transactions", .arr (st.transactions.map encodeTransaction)),
        ("alerts", .arr (st.alerts.map encodeAlert)),
        ("scanHistory", .arr (st.scanHistory.map encodeScanEntry))]

/-- data.chain || [] and friends: an absent component defaults to empty. -/
def componentArr {α : Type} (dec : Json → Option α) (fields : List (String × Json))
    (k : String) : Option (List α) :=
  match jLookup fields k with
  | none => some []
  | some j => (asArr j).bind (fun l => decodeList dec l)

/-- The load path of initialize(): rebuild the five components from the
parsed document (constructor defaults for the rest), and create a genesis
block when the loaded chain is empty.  The catch-and-reset branch for an
unparseable document is not modelled. -/
def initFromSaved (H : String → String) (ts : String) (j : Json) : Option EngineState := do
  let f ← asObj j
  let chain ← componentArr decodeBlock f "chain"
  let medicines ← componentArr decodeMedEntry f "medicines"
  let transactions ← componentArr decodeTransaction f "transactions"
  let alerts ← componentArr decodeAlert f "alerts"
  let scanHistory ← componentArr decodeScanEntry f "scanHistory"
  let st : EngineState :=
    { chain := chain, pendingTransactions := [], medicines := medicines,
      transactions := transactions, alerts := alerts, scanHistory := scanHistory,
      difficulty := 2 }
  pure (if st.chain.length = 0 then { st with chain := [createGenesisBlock H ts] } else st)

/-! Definitions supporting the statements and proofs below. -/

/-- The last block of g :: l. -/
def lastOf : Block → List Block → Block
  | g, [] => g
  | _, b :: rest => lastOf b rest

/-- The invariant maintained by every public mutating operation: the chain
is nonempty, the difficulty is the constructor constant 2, and the chain
passes isChainValid. -/
def ChainInv (H : String → String) (st : EngineState) : Prop :=
  st.chain ≠ [] ∧ st.difficulty = 2 ∧ isChainValid H st = true

/-- Concrete digest function for witnesses: every digest is "00", which
meets difficulty 2 (the first mined nonce is then 1). -/
def Htoy : String → String := fun _ => "00"

/-- Concrete date parser for witnesses: "past" parses to 0, "future" to
1000000, anything else is an invalid date. -/
def Ptoy : String → Option Int :=
  fun s => if s = "past" then some 0 else if s = "future" then some 1000000 else none

/-- Concrete call environment for witnesses (clock at 500 ms). -/
def envToy : Env :=
  { nowMs := 500, nowIso := "t1", rand1 := "r1", rand2 := "r2", fuel := 3 }

/-- Concrete registration payload for witnesses. -/
def mdToy : MedicineData :=
  { medicineName := some "Amoxicillin", batchNumber := "B1", manufacturerId := some "M1",
    manufacturerName := some "Acme", mfgDate := "d0", expiryDate := some "future",
    medType := "tablet", quantity := 10, composition := "c", shipmentDest := "s",
    price := "5" }

/-- The same payload with an already-elapsed expiry date. -/
def mdExpired : MedicineData := { mdToy with expiryDate := some "past" }

/-- A payload whose medicineName the caller omitted. -/
def mdNoName : MedicineData := { mdToy with medicineName := none, batchNumber := "B2" }

/-- A payload with an empty batch identifier. -/
def mdEmptyBatch : MedicineData := { mdToy with batchNumber := "" }

/-- Fresh engine used by the witnesses. -/
def stToy : EngineState := initState Htoy "t0"

/-- Engine with one registered (unexpired) medicine, used by the witnesses. -/
def stRegToy : EngineState :=
  (match registerMedicine Htoy envToy mdToy stToy with
   | some (_, st) => st
   | none => stToy)

/-- Engine with one registered medicine whose expiry date has passed. -/
def stRegExpired : EngineState :=
  (match registerMedicine Htoy envToy mdExpired stToy with
   | some (_, st) => st
   | none => stToy)

/-- Contract state with the same batch registered, used against stRegExpired. -/
def solRegExpired : SolState :=
  (match solRegisterMedicine "owner" 100 "Amoxicillin" "B1" "M1" "Acme" "d0" "past"
      (solInit "owner") with
   | .ok s => s
   | .error _ => solInit "owner")

/-- A sequence of public mutating calls exercising every operation,
including a failing duplicate registration and a scan of an unknown batch. -/
def opsToy : List Op :=
  [.register envToy mdToy, .verify envToy "B1",
   .transfer envToy "B1" "Shipped" "Dist" "Warehouse", .alert envToy "B1" "spot check",
   .verify envToy "ZZ", .register envToy mdToy]

/-- The state opsToy reaches from a fresh engine. -/
def stC1 : EngineState := (runOps Htoy Ptoy (initState Htoy "t0") opsToy).getD stToy

/-- A stored record that is both expired and marked sold. -/
def medSoldExpired : Medicine :=
  { mkMedicineRecord envToy mdExpired with
    status := "sold", blockHash := some "00", blockNumber := some 1 }

/-- Engine whose only record is expired and sold. -/
def stSoldExpired : EngineState :=
  { stRegExpired with medicines := mapSet stRegExpired.medicines "B1" medSoldExpired }

/-- Fallback pair for reading off concrete verification outcomes. -/
def pairFallback : VerifyResult × EngineState :=
  ({ isAuthentic := true, checks := [], medicine := none, batchNumber := "" }, stToy)

/-- Concrete outcome of scanning the expired-and-sold batch. -/
def vpC2 : VerifyResult × EngineState :=
  (verifyMedicine Htoy Ptoy envToy "B1" stSoldExpired).getD pairFallback

/-- Concrete outcome of scanning an unknown batch on a fresh engine. -/
def vpC3 : VerifyResult × EngineState :=
  (verifyMedicine Htoy Ptoy envToy "NOPE" stToy).getD pairFallback

/-- A payload whose manufacturerName the caller omitted. -/
def mdNoMfr : MedicineData := { mdToy with manufacturerName := none, batchNumber := "B3" }

/-- Contract state with batch B1 registered and then marked sold. -/
def solSoldState : SolState :=
  (match solMarkAsSold "B1" solRegExpired with
   | .ok s => s
   | .error _ => solRegExpired)

/-- One-operation run used by the serialization witness. -/
def opsOne : List Op := [.register envToy mdToy]

/-- The state opsOne reaches from a fresh engine. -/
def stC8 : EngineState := (runOps Htoy Ptoy (initState Htoy "t0") opsOne).getD stToy

/-- Whether an Except result is a success. -/
def exceptOk {ε α : Type} : Except ε α → Bool
  | .ok _ => true
  | .error _ => false

/-- The block the toy digest mines at difficulty 2 (first qualifying nonce
reached by the loop is 1). -/
def blkC7 : Block :=
  { index := 1, timestamp := "t", data := .genesis "g", previousHash := "p",
    hash := "00", nonce := 1 }

/-- Fallback contract record. -/
def solMedFallback : SolMedicine :=
  { id := 0, medicineName := "", batchNumber := "", manufacturerId := "",
    manufacturerName := "", mfgDate := "", expiryDate := "", status := .active,
    registeredBy := "", registeredAt := 0, scanCount := 0 }

/-- The sold contract record of batch B1. -/
def smSold : SolMedicine := (mapGet solSoldState.medicines "B1").getD solMedFallback

/-- The active contract record of batch B1. -/
def smActive : SolMedicine := (mapGet solRegExpired.medicines "B1").getD solMedFallback

/-- The active reference-engine record of batch B1 (future expiry). -/
def medActiveToy : Medicine := (mapGet stRegToy.medicines "B1").getD medSoldExpired

/-- Concrete outcome of scanning an unknown batch (agreement witness). -/
def vpC4a : VerifyResult × EngineState :=
  (verifyMedicine Htoy Ptoy envToy "QQ" stToy).getD pairFallback

/-- Concrete outcome of scanning the active unexpired batch B1. -/
def vpC4active : VerifyResult × EngineState :=
  (verifyMedicine Htoy Ptoy envToy "B1" stRegToy).getD pairFallback

/-! Lemmas about the proof-of-work search. -/

theorem takeChars_empty_ne_zeros {d : Nat} (hd : 1 ≤ d) : takeChars "" d ≠ zeros d := by
  intro h
  have h2 : (takeChars "" d).data = (zeros d).data := by rw [h]
  have he : ("" : String).data = ([] : List Char) := rfl
  simp [takeChars, zeros, he] at h2
  omega

theorem mineLoop_pass {H : String → String} {i : Nat} {p t : String} {d : BlockData}
    {diff : Nat} : ∀ {fuel nonce : Nat} {h0 : String} {n : Nat} {hh : String},
    mineLoop H i p t d diff fuel nonce h0 = some (n, hh) →
    takeChars hh diff = zeros diff := by
  intro fuel
  induction fuel with
  | zero =>
    intro nonce h0 n hh hm
    by_cases hc : takeChars h0 diff = zeros diff
    · simp [mineLoop, hc] at hm
      rw [← hm.2]
      exact hc
    · simp [mineLoop, hc] at hm
  | succ fuel ih =>
    intro nonce h0 n hh hm
    by_cases hc : takeChars h0 diff = zeros diff
    · simp [mineLoop, hc] at hm
      rw [← hm.2]
      exact hc
    · simp [mineLoop, hc] at hm
      exact ih hm

theorem mineLoop_hash {H : String → String} {i : Nat} {p t : String} {d : BlockData}
    {diff : Nat} : ∀ {fuel nonce n : Nat} {hh : String},
    mineLoop H i p t d diff fuel nonce (calcHash H i p t d nonce) = some (n, hh) →
    hh = calcHash H i p t d n ∧ nonce ≤ n := by
  intro fuel
  induction fuel with
  | zero =>
    intro nonce n hh hm
    by_cases hc : takeChars (calcHash H i p t d nonce) diff = zeros diff
    · simp [mineLoop, hc] at hm
      exact ⟨by rw [← hm.2, hm.1], le_of_eq hm.1⟩
    · simp [mineLoop, hc] at hm
  | succ fuel ih =>
    intro nonce n hh hm
    by_cases hc : takeChars (calcHash H i p t d nonce) diff = zeros diff
    · simp [mineLoop, hc] at hm
      exact ⟨by rw [← hm.2, hm.1], le_of_eq hm.1⟩
    · simp [mineLoop, hc] at hm
      obtain ⟨h1, h2⟩ := ih hm
      exact ⟨h1, Nat.le_of_succ_le h2⟩

theorem mineLoop_least {H : String → String} {i : Nat} {p t : String} {d : BlockData}
    {diff : Nat} : ∀ {fuel nonce n : Nat} {hh : String},
    mineLoop H i p t d diff fuel nonce (calcHash H i p t d nonce) = some (n, hh) →
    ∀ k, nonce ≤ k → k < n → takeChars (calcHash H i p t d k) diff ≠ zeros diff := by
  intro fuel
  induction fuel with
  | zero =>
    intro nonce n hh hm k hk1 hk2
    by_cases hc : takeChars (calcHash H i p t d nonce) diff = zeros diff
    · simp [mineLoop, hc] at hm
      obtain ⟨h1, _⟩ := hm
      omega
    · simp [mineLoop, hc] at hm
  | succ fuel ih =>
    intro nonce n hh hm k hk1 hk2
    by_cases hc : takeChars (calcHash H i p t d nonce) diff = zeros diff
    · simp [mineLoop, hc] at hm
      obtain ⟨h1, _⟩ := hm
      omega
    · simp [mineLoop, hc] at hm
      rcases Nat.eq_or_lt_of_le hk1 with h | h
      · rw [← h]
        exact hc
      · exact ih hm k h hk2

theorem mineBlock_spec {H : String → String} {diff fuel i : Nat} {ts prev : String}
    {d : BlockData} {b2 : Block}
    (hstart : takeChars "" diff ≠ zeros diff)
    (hm : mineBlock H diff fuel (newBlock i ts d prev) = some b2) :
    b2.index = i ∧ b2.timestamp = ts ∧ b2.data = d ∧ b2.previousHash = prev ∧
    b2.hash = calcHash H i prev ts d b2.nonce ∧ takeChars b2.hash diff = zeros diff ∧
    1 ≤ b2.nonce ∧
    (∀ k, 1 ≤ k → k < b2.nonce → takeChars (calcHash H i prev ts d k) diff ≠ zeros diff) := by
  unfold mineBlock newBlock at hm
  cases fuel with
  | zero =>
    simp [mineLoop, hstart] at hm
  | succ f =>
    rw [show mineLoop H i prev ts d diff (f + 1) 0 "" =
        mineLoop H i prev ts d diff f 1 (calcHash H i prev ts d 1) by
      simp [mineLoop, hstart]] at hm
    cases hml : mineLoop H i prev ts d diff f 1 (calcHash H i prev ts d 1) with
    | none => rw [hml] at hm; simp at hm
    | some pr =>
      obtain ⟨n, hh⟩ := pr
      rw [hml] at hm
      simp at hm
      have hps := mineLoop_pass hml
      have hha := mineLoop_hash hml
      have hl := mineLoop_least hml
      subst hm
      refine ⟨rfl, rfl, rfl, rfl, hha.1, hps, hha.2, ?_⟩
      intro k hk1 hk2
      exact hl k hk1 hk2

/-! Chain-validity lemmas. -/

theorem getLastQ_eq_lastOf (g : Block) (l : List Block) :
    (g :: l).getLast? = some (lastOf g l) := by
  induction l generalizing g with
  | nil => rfl
  | cons b rest ih => simpa [lastOf] using ih b

theorem chainValidFrom_append (H : String → String) (g : Block) (l : List Block) (b : Block) :
    chainValidFrom H g (l ++ [b]) =
      (chainValidFrom H g l && (b.hash == calculateHash H b) &&
        (b.previousHash == (lastOf g l).hash)) := by
  induction l generalizing g with
  | nil => simp [chainValidFrom, lastOf, Bool.and_assoc, Bool.and_comm]
  | cons c rest ih => simp [chainValidFrom, lastOf, ih c, Bool.and_assoc]

theorem addBlock_spec {H : String → String} {env : Env} {d : BlockData}
    {st : EngineState} {blk : Block} {st2 : EngineState} (hdiff : st.difficulty = 2)
    (h : addBlock H env d st = some (blk, st2)) :
    st2 = { st with chain := st.chain ++ [blk] } ∧
    blk.hash = calculateHash H blk ∧
    (∀ g rest, st.chain = g :: rest → blk.previousHash = (lastOf g rest).hash) := by
  unfold addBlock at h
  split at h
  · simp at h
  next latest hl =>
    split at h
    · simp at h
    next mined hm =>
      simp at h
      obtain ⟨hb, hst⟩ := h
      subst hb
      rw [hdiff] at hm
      have hspec := mineBlock_spec (takeChars_empty_ne_zeros (by omega)) hm
      obtain ⟨hidx, hts, hdata, hprev, hhash, _, _, _⟩ := hspec
      refine ⟨hst.symm, ?_, ?_⟩
      · rw [hhash]
        unfold calculateHash
        rw [hidx, hts, hdata, hprev]
      · intro g rest hchain
        rw [hchain, getLastQ_eq_lastOf] at hl
        injection hl with he
        rw [← he] at hprev
        exact hprev

theorem chainInv_congr {H : String → String} {st st2 : EngineState} (hInv : ChainInv H st)
    (hc : st2.chain = st.chain) (hd : st2.difficulty = st.difficulty) : ChainInv H st2 := by
  obtain ⟨h1, h2, h3⟩ := hInv
  refine ⟨by rw [hc]; exact h1, by rw [hd]; exact h2, ?_⟩
  unfold isChainValid at h3 ⊢
  rw [hc]
  exact h3

theorem chainInv_addBlock {H : String → String} {env : Env} {d : BlockData}
    {st : EngineState} {blk : Block} {st2 : EngineState}
    (h : addBlock H env d st = some (blk, st2)) (hInv : ChainInv H st) : ChainInv H st2 := by
  obtain ⟨hne, hdiff, hvalid⟩ := hInv
  obtain ⟨hst, hhash, hprev⟩ := addBlock_spec hdiff h
  cases hchain : st.chain with
  | nil => exact absurd hchain hne
  | cons g rest =>
    subst hst
    refine ⟨by simp, hdiff, ?_⟩
    unfold isChainValid at hvalid ⊢
    rw [hchain] at hvalid
    have hv2 : chainValidFrom H g rest = true := hvalid
    rw [show ({ st with chain := st.chain ++ [blk] } : EngineState).chain = st.chain ++ [blk]
      from rfl, hchain]
    show chainValidFrom H g (rest ++ [blk]) = true
    rw [chainValidFrom_append]
    simp [hv2, hhash, hprev g rest hchain]

theorem chainInv_initState (H : String → String) (ts : String) :
    ChainInv H (initState H ts) := by
  exact ⟨by simp [initState], rfl, rfl⟩

theorem chainInv_createAlert {H : String → String} {env : Env} {b r : String}
    {st : EngineState} {a : Alert} {st2 : EngineState}
    (h : createAlert H env b r st = some (a, st2)) (hInv : ChainInv H st) :
    ChainInv H st2 := by
  simp only [createAlert] at h
  split at h
  · simp at h
  next blk st1 heq =>
    simp at h
    obtain ⟨_, hst⟩ := h
    have hInv1 := chainInv_addBlock heq (chainInv_congr hInv rfl rfl)
    exact chainInv_congr hInv1 (by rw [← hst]) (by rw [← hst])

theorem chainInv_registerMedicine {H : String → String} {env : Env} {d : MedicineData}
    {st : EngineState} {res : Except String RegSuccess} {st2 : EngineState}
    (h : registerMedicine H env d st = some (res, st2)) (hInv : ChainInv H st) :
    ChainInv H st2 := by
  simp only [registerMedicine] at h
  split at h
  · simp at h
    obtain ⟨_, hst⟩ := h
    exact chainInv_congr hInv (by rw [← hst]) (by rw [← hst])
  · split at h
    · simp at h
    next blk st1 heq =>
      simp at h
      obtain ⟨_, hst⟩ := h
      have hInv1 := chainInv_addBlock heq hInv
      exact chainInv_congr hInv1 (by rw [← hst]) (by rw [← hst])

theorem chainInv_transferMedicine {H : String → String} {env : Env}
    {b s a l : String} {st : EngineState} {res : Except String TransferSuccess}
    {st2 : EngineState} (h : transferMedicine H env b s a l st = some (res, st2))
    (hInv : ChainInv H st) : ChainInv H st2 := by
  simp only [transferMedicine] at h
  split at h
  · simp at h
    obtain ⟨_, hst⟩ := h
    exact chainInv_congr hInv (by rw [← hst]) (by rw [← hst])
  next med hmed =>
    split at h
    · simp at h
    next blk st1 heq =>
      simp at h
      obtain ⟨_, hst⟩ := h
      have hInv1 := chainInv_addBlock heq hInv
      exact chainInv_congr hInv1 (by rw [← hst]) (by rw [← hst])

theorem chainInv_verifyMedicine {H : String → String} {P : String → Option Int}
    {env : Env} {b : String} {st : EngineState} {res : VerifyResult} {st2 : EngineState}
    (h : verifyMedicine H P env b st = some (res, st2)) (hInv : ChainInv H st) :
    ChainInv H st2 := by
  simp only [verifyMedicine] at h
  split at h
  · split at h
    · simp at h
    next a stA heqA =>
      split at h
      · simp at h
      next blk stB heqB =>
        simp at h
        obtain ⟨_, hst⟩ := h
        have h1 := chainInv_createAlert heqA hInv
        have h2 := chainInv_addBlock heqB h1
        exact chainInv_congr h2 (by rw [← hst]) (by rw [← hst])
  next med hmed =>
    split at h
    · simp at h
    next blk stB heqB =>
      have h1 := chainInv_addBlock heqB (chainInv_congr hInv rfl rfl)
      split at h
      · simp at h
        obtain ⟨_, hst⟩ := h
        exact chainInv_congr h1 (by rw [← hst]) (by rw [← hst])
      · split at h
        · simp at h
        next a stC heqC =>
          simp at h
          obtain ⟨_, hst⟩ := h
          have h2 := chainInv_createAlert heqC (chainInv_congr h1 rfl rfl)
          exact chainInv_congr h2 (by rw [← hst]) (by rw [← hst])

theorem chainInv_applyOp {H : String → String} {P : String → Option Int}
    {st : EngineState} {op : Op} {st2 : EngineState} (hInv : ChainInv H st)
    (h : applyOp H P st op = some st2) : ChainInv H st2 := by
  cases op with
  | register env d =>
    simp only [applyOp] at h
    cases hr : registerMedicine H env d st with
    | none => rw [hr] at h; simp at h
    | some pr =>
      obtain ⟨res, stx⟩ := pr
      rw [hr] at h
      simp at h
      rw [← h]
      exact chainInv_registerMedicine hr hInv
  | verify env b =>
    simp only [applyOp] at h
    cases hr : verifyMedicine H P env b st with
    | none => rw [hr] at h; simp at h
    | some pr =>
      obtain ⟨res, stx⟩ := pr
      rw [hr] at h
      simp at h
      rw [← h]
      exact chainInv_verifyMedicine hr hInv
  | transfer env b s a l =>
    simp only [applyOp] at h
    cases hr : transferMedicine H env b s a l st with
    | none => rw [hr] at h; simp at h
    | some pr =>
      obtain ⟨res, stx⟩ := pr
      rw [hr] at h
      simp at h
      rw [← h]
      exact chainInv_transferMedicine hr hInv
  | alert env b r =>
    simp only [applyOp] at h
    cases hr : createAlert H env b r st with
    | none => rw [hr] at h; simp at h
    | some pr =>
      obtain ⟨res, stx⟩ := pr
      rw [hr] at h
      simp at h
      rw [← h]
      exact chainInv_createAlert hr hInv

theorem chainInv_runOps {H : String → String} {P : String → Option Int} :
    ∀ {ops : List Op} {st st2 : EngineState}, ChainInv H st →
    runOps H P st ops = some st2 → ChainInv H st2 := by
  intro ops
  induction ops with
  | nil =>
    intro st st2 hInv h
    simp [runOps] at h
    rw [← h]
    exact hInv
  | cons op rest ih =>
    intro st st2 hInv h
    simp only [runOps] at h
    cases ha : applyOp H P st op with
    | none => rw [ha] at h; simp at h
    | some stx =>
      rw [ha] at h
      exact ih (chainInv_applyOp hInv ha) h

/-! Effect lemmas for single operations. -/

theorem addBlock_chain {H : String → String} {env : Env} {d : BlockData}
    {st : EngineState} {blk : Block} {st2 : EngineState}
    (h : addBlock H env d st = some (blk, st2)) :
    st2 = { st with chain := st.chain ++ [blk] } := by
  unfold addBlock at h
  split at h
  · simp at h
  next latest hl =>
    split at h
    · simp at h
    next mined hm =>
      simp at h
      obtain ⟨hb, hst⟩ := h
      subst hb
      exact hst.symm

theorem createAlert_effect {H : String → String} {env : Env} {b r : String}
    {st : EngineState} {a : Alert} {st2 : EngineState}
    (h : createAlert H env b r st = some (a, st2)) :
    st2.chain.length = st.chain.length + 1 ∧ st2.alerts = st.alerts ++ [a] ∧
    st2.medicines = st.medicines := by
  simp only [createAlert] at h
  split at h
  · simp at h
  next blk st1 heq =>
    simp at h
    obtain ⟨ha, hst⟩ := h
    have he := addBlock_chain heq
    rw [← hst, he, ← ha]
    simp

theorem mapGet_set_self {κ α : Type} [DecidableEq κ] (l : List (κ × α)) (k : κ) (v : α) :
    mapGet (mapSet l k v) k = some v := by
  induction l with
  | nil => simp [mapGet, mapSet]
  | cons p rest ih =>
    obtain ⟨k2, v2⟩ := p
    by_cases hk : k2 = k
    · simp [mapGet, mapSet, hk]
    · simp [mapGet, mapSet, hk, ih]

theorem medMatches_isSome {q : String} {m : Medicine}
    (h : m.medicineName.isSome = true) : (medMatches q m).isSome = true := by
  unfold medMatches
  cases hmn : m.medicineName with
  | none => rw [hmn] at h; simp at h
  | some n =>
    by_cases h1 : strIncludes (strToLower m.batchNumber) q = true
    · simp [h1]
    · by_cases h2 : strIncludes (strToLower n) q = true
      · simp [h1, h2]
      · cases hmf : m.manufacturerName <;> simp [h1, h2, hmf]

theorem searchGo_isSome {q : String} :
    ∀ {l : List Medicine}, (∀ m ∈ l, m.medicineName.isSome = true) →
    (searchGo q l).isSome = true := by
  intro l
  induction l with
  | nil => intro _; rfl
  | cons m rest ih =>
    intro hall
    have h1 := medMatches_isSome (q := q) (hall m (by simp))
    have h2 := ih (fun x hx => hall x (by simp [hx]))
    unfold searchGo
    cases hm : medMatches q m with
    | none => rw [hm] at h1; simp at h1
    | some b =>
      cases hr : searchGo q rest with
      | none => rw [hr] at h2; simp at h2
      | some r => rfl

/-! Serialization round-trip lemmas. -/

theorem decodeCheckpoint_encode (c : Checkpoint) :
    decodeCheckpoint (encodeCheckpoint c) = some c := by
  obtain ⟨stage, actor, location, timestamp, txHash⟩ := c
  cases actor <;> rfl

theorem decodeVerifEntry_encode (v : VerifEntry) :
    decodeVerifEntry (encodeVerifEntry v) = some v := by
  obtain ⟨ts, r⟩ := v
  rfl

theorem decodeAlert_encode (a : Alert) : decodeAlert (encodeAlert a) = some a := by
  obtain ⟨id, b, r, ts, sev, stt⟩ := a
  rfl

theorem decodeScanEntry_encode (s : ScanEntry) :
    decodeScanEntry (encodeScanEntry s) = some s := by
  obtain ⟨b, mn, r, ts, reason⟩ := s
  cases mn <;> cases reason <;> rfl

theorem decodeBlockData_encode (d : BlockData) :
    decodeBlockData (encodeBlockData d) = some d := by
  cases d with
  | genesis m => rfl
  | registration b mn mi tx => cases mn <;> cases mi <;> rfl
  | verification p b tx => cases p <;> rfl
  | transfer b s a tx => rfl
  | alert b r tx => rfl

theorem decodeTxData_encode (d : TxData) : decodeTxData (encodeTxData d) = some d := by
  cases d with
  | registration b mn mi => cases mn <;> cases mi <;> rfl
  | verificationNF b res reason => rfl
  | verification b mn res => cases mn <;> rfl
  | transfer b s a l => rfl
  | alert b r => rfl

theorem decodeList_encode {α : Type} {dec : Json → Option α} {enc : α → Json}
    (h : ∀ x, dec (enc x) = some x) :
    ∀ l : List α, decodeList dec (l.map enc) = some l := by
  intro l
  induction l with
  | nil => rfl
  | cons x xs ih => simp [List.map, decodeList, h, ih]

theorem decodeBlock_encode (b : Block) : decodeBlock (encodeBlock b) = some b := by
  obtain ⟨i, ts, d, p, h, n⟩ := b
  have step : decodeBlock (encodeBlock ⟨i, ts, d, p, h, n⟩) =
      (decodeBlockData (encodeBlockData d)).bind
        (fun x => some ⟨i, ts, x, p, h, n⟩) := rfl
  rw [step, decodeBlockData_encode]
  rfl

theorem decodeTransaction_encode (t : Transaction) :
    decodeTransaction (encodeTransaction t) = some t := by
  obtain ⟨id, ty, data, fromId, toId, ts, h, bn, stt⟩ := t
  have step : decodeTransaction (encodeTransaction ⟨id, ty, data, fromId, toId, ts, h, bn, stt⟩) =
      (decodeTxData (encodeTxData data)).bind
        (fun x => some ⟨id, ty, x, fromId, toId, ts, h, bn, stt⟩) := by
    cases fromId <;> cases toId <;> cases bn <;> rfl
  rw [step, decodeTxData_encode]
  rfl

set_option maxHeartbeats 3200000 in
theorem decodeMedicine_encode (m : Medicine) : decodeMedicine (encodeMedicine m) = some m := by
  obtain ⟨mn, b, mi, mfn, mfd, exp, mt, q, comp, sd, pr, ra, stt, sc, sch, ver, bh, bn⟩ := m
  have step : decodeMedicine (encodeMedicine
        ⟨mn, b, mi, mfn, mfd, exp, mt, q, comp, sd, pr, ra, stt, sc, sch, ver, bh, bn⟩) =
      (decodeList decodeCheckpoint (sch.map encodeCheckpoint)).bind (fun sc2 =>
        (decodeList decodeVerifEntry (ver.map encodeVerifEntry)).bind (fun ver2 =>
          some ⟨mn, b, mi, mfn, mfd, exp, mt, q, comp, sd, pr, ra, stt, sc, sc2, ver2, bh, bn⟩)) := by
    cases mn <;> cases mi <;> cases mfn <;> cases exp <;> cases bh <;> cases bn <;> rfl
  rw [step, decodeList_encode decodeCheckpoint_encode, decodeList_encode decodeVerifEntry_encode]
  rfl

theorem decodeMedEntry_encode (p : String × Medicine) :
    decodeMedEntry (encodeMedEntry p) = some p := by
  obtain ⟨k, m⟩ := p
  simp [encodeMedEntry, decodeMedEntry, decodeMedicine_encode]

theorem initFromSaved_encodeState {H : String → String} {ts : String} {st : EngineState}
    (hne : st.chain ≠ []) :
    initFromSaved H ts (encodeState st) =
      some { chain := st.chain, pendingTransactions := [], medicines := st.medicines,
             transactions := st.transactions, alerts := st.alerts,
             scanHistory := st.scanHistory, difficulty := 2 } := by
  have step : initFromSaved H ts (encodeState st) =
      (decodeList decodeBlock (st.chain.map encodeBlock)).bind (fun chain =>
        (decodeList decodeMedEntry (st.medicines.map encodeMedEntry)).bind (fun meds =>
          (decodeList decodeTransaction (st.transactions.map encodeTransaction)).bind (fun txs =>
            (decodeList decodeAlert (st.alerts.map encodeAlert)).bind (fun als =>
              (decodeList decodeScanEntry (st.scanHistory.map encodeScanEntry)).bind (fun shs =>
                some (if chain.length = 0 then
                  { chain := [createGenesisBlock H ts], pendingTransactions := [],
                    medicines := meds, transactions := txs, alerts := als,
                    scanHistory := shs, difficulty := 2 }
                else
                  { chain := chain, pendingTransactions := [], medicines := meds,
                    transactions := txs, alerts := als, scanHistory := shs,
                    difficulty := 2 })))))) := rfl
  rw [step, decodeList_encode decodeBlock_encode, decodeList_encode decodeMedEntry_encode,
    decodeList_encode decodeTransaction_encode, decodeList_encode decodeAlert_encode,
    decodeList_encode decodeScanEntry_encode]
  simp [List.length_eq_zero, hne]

/-! Claim theorems. -/

/-- C1: for every finite sequence of calls to the engine's public mutating
operations (registerMedicine, verifyMedicine, transferMedicine, createAlert)
that runs to completion from a freshly initialized engine holding only the
genesis block, isChainValid on the resulting state returns true: every block
at index i ≥ 1 has a stored hash equal to the digest recomputed from its
stored index, previousHash, timestamp, data and nonce, and a previousHash
equal to the stored hash of block i - 1. -/
theorem C1_isChainValid_after_ops (H : String → String) (P : String → Option Int)
    (ts : String) (ops : List Op) (st : EngineState)
    (h : runOps H P (initState H ts) ops = some st) : isChainValid H st = true :=
  (chainInv_runOps (chainInv_initState H ts) h).2.2

/-- Witness for C1 at a concrete six-operation run. -/
theorem C1_witness : isChainValid Htoy stC1 = true :=
  C1_isChainValid_after_ops Htoy Ptoy "t0" opsToy stC1 (by decide)

/-- C5: registering an already-present batch identifier fails with the
duplicate-batch error and leaves the block log, the transaction list and the
medicine map exactly as they were (the returned state is the input state). -/
theorem C5_duplicate_register_unchanged (H : String → String) (env : Env)
    (d : MedicineData) (st : EngineState)
    (hdup : mapHas st.medicines d.batchNumber = true) :
    registerMedicine H env d st =
      some (.error ("Batch " ++ d.batchNumber ++ " already registered on blockchain"), st) := by
  simp [registerMedicine, hdup]

/-- Witness for C5: re-registering batch B1. -/
theorem C5_witness :
    registerMedicine Htoy envToy mdToy stRegToy =
      some (.error "Batch B1 already registered on blockchain", stRegToy) :=
  C5_duplicate_register_unchanged Htoy envToy mdToy stRegToy (by decide)

/-- C7 counterexample: at a digest function for which the nonce 0 digest
already meets difficulty 2, mineBlock still returns nonce 1 — the mined
block does not carry the smallest qualifying nonce n ≥ 0, because the loop
increments the nonce before computing the first digest. -/
theorem C7_counterexample :
    ¬ (∀ blk, mineBlock Htoy 2 5 (newBlock 1 "t" (.genesis "g") "p") = some blk →
        ∀ k, k < blk.nonce → takeChars (calcHash Htoy 1 "p" "t" (.genesis "g") k) 2 ≠ zeros 2) := by
  intro hclaim
  exact hclaim blkC7 (by decide) 0 (by decide) (by decide)

/-- C7 amended: for difficulty at least 1, a successful mineBlock run from a
fresh block returns a block whose stored hash is the digest at its stored
nonce, meets the difficulty target, and carries the smallest qualifying
nonce n ≥ 1 — nonce 0 is never attempted, since the loop increments the
nonce before the first digest computation. -/
theorem C7_amended (H : String → String) (diff fuel i : Nat) (ts prev : String)
    (d : BlockData) (b2 : Block) (hdiff : 1 ≤ diff)
    (hm : mineBlock H diff fuel (newBlock i ts d prev) = some b2) :
    b2.hash = calcHash H i prev ts d b2.nonce ∧
    takeChars b2.hash diff = zeros diff ∧ 1 ≤ b2.nonce ∧
    ∀ k, 1 ≤ k → k < b2.nonce → takeChars (calcHash H i prev ts d k) diff ≠ zeros diff := by
  obtain ⟨_, _, _, _, h5, h6, h7, h8⟩ := mineBlock_spec (takeChars_empty_ne_zeros hdiff) hm
  exact ⟨h5, h6, h7, h8⟩

/-- Witness for C7 amended at the toy digest. -/
theorem C7_witness :
    blkC7.hash = calcHash Htoy 1 "p" "t" (.genesis "g") blkC7.nonce ∧
    takeChars blkC7.hash 2 = zeros 2 ∧ 1 ≤ blkC7.nonce ∧
    ∀ k, 1 ≤ k → k < blkC7.nonce →
      takeChars (calcHash Htoy 1 "p" "t" (.genesis "g") k) 2 ≠ zeros 2 :=
  C7_amended Htoy 2 5 1 "t" "p" (.genesis "g") blkC7 (by decide) (by decide)

/-- C8: serializing a reachable engine state with save() and loading it back
with the initialize() load path reproduces the chain block-for-block and
the medicine map entry-for-entry (transactions, alerts and scan history are
reproduced as well; the remaining fields take their constructor defaults). -/
theorem C8_save_load_roundtrip (H : String → String) (P : String → Option Int)
    (ts ts2 : String) (ops : List Op) (st : EngineState)
    (h : runOps H P (initState H ts) ops = some st) :
    initFromSaved H ts2 (encodeState st) =
      some { chain := st.chain, pendingTransactions := [], medicines := st.medicines,
             transactions := st.transactions, alerts := st.alerts,
             scanHistory := st.scanHistory, difficulty := 2 } :=
  initFromSaved_encodeState (chainInv_runOps (chainInv_initState H ts) h).1

/-- Witness for C8 after one registration. -/
theorem C8_witness :
    initFromSaved Htoy "t9" (encodeState stC8) =
      some { chain := stC8.chain, pendingTransactions := [], medicines := stC8.medicines,
             transactions := stC8.transactions, alerts := stC8.alerts,
             scanHistory := stC8.scanHistory, difficulty := 2 } :=
  C8_save_load_roundtrip Htoy Ptoy "t0" "t9" opsOne stC8 (by decide)

/-- C10: for a batch identifier absent from the store, the reference
engine's getMedicine returns the null result (modelled as the none value of
a total function — the call never fails), while the consensus-runtime
implementation's getMedicine rejects the call with the "Medicine not found"
error. -/
theorem C10_absence_reporting (js : EngineState) (sol : SolState) (b : String)
    (h1 : mapGet js.medicines b = none) (h2 : mapGet sol.medicines b = none) :
    getMedicine js b = none ∧ solGetMedicine sol b = .error "Medicine not found" :=
  ⟨by simp [getMedicine, h1], by simp [solGetMedicine, h2]⟩

/-- Witness for C10 at an unknown batch. -/
theorem C10_witness :
    getMedicine stRegToy "QQ" = none ∧
    solGetMedicine (solInit "owner") "QQ" = .error "Medicine not found" :=
  C10_absence_reporting stRegToy (solInit "owner") "QQ" (by decide) (by decide)

/-- C2: when the batch is present in the medicine map, verifyMedicine
evaluates all six named checks and aggregates them — a record that is both
expired and marked sold reports two independent failed checks (Medicine Not
Expired and Not Previously Sold) with isAuthentic false; only absence of
the record returns immediately with a single check. -/
theorem C2_two_tier_aggregation (H : String → String) (P : String → Option Int)
    (env : Env) (b : String) (st : EngineState) :
    (∀ med, mapGet st.medicines b = some med → med.status = "sold" →
      expiryOk P env.nowMs med.expiryDate = false →
      ∀ res st2, verifyMedicine H P env b st = some (res, st2) →
        res.isAuthentic = false ∧ res.checks.length = 6 ∧
        ({ name := "Medicine Not Expired", passed := false,
           detail := "EXPIRED on " ++ showOptStr med.expiryDate } : Check) ∈ res.checks ∧
        ({ name := "Not Previously Sold", passed := false,
           detail := "Medicine marked as SOLD" } : Check) ∈ res.checks) ∧
    (mapGet st.medicines b = none →
      ∀ res st2, verifyMedicine H P env b st = some (res, st2) →
        res.checks.length = 1) := by
  constructor
  · intro med hmed hsold hexp res st2 h
    simp only [verifyMedicine, hmed, hexp, hsold, bne_self_eq_false, Bool.false_and,
      Bool.and_false, if_neg, Bool.false_eq_true, if_false] at h
    split at h
    · simp at h
    next blk stB heqB =>
      split at h
      · simp at h
      next a stC heqC =>
        simp at h
        obtain ⟨hres, hst⟩ := h
        refine ⟨by rw [← hres], by rw [← hres]; rfl, ?_, ?_⟩
        · rw [← hres]
          simp
        · rw [← hres]
          simp
  · intro hmed res st2 h
    simp only [verifyMedicine, hmed] at h
    split at h
    · simp at h
    next a stA heqA =>
      split at h
      · simp at h
      next blk stB heqB =>
        simp at h
        obtain ⟨hres, hst⟩ := h
        rw [← hres]
        rfl

/-- Witness for C2 at the expired-and-sold batch B1. -/
theorem C2_witness :
    vpC2.1.isAuthentic = false ∧ vpC2.1.checks.length = 6 ∧
    ({ name := "Medicine Not Expired", passed := false,
       detail := "EXPIRED on " ++ showOptStr medSoldExpired.expiryDate } : Check) ∈ vpC2.1.checks ∧
    ({ name := "Not Previously Sold", passed := false,
       detail := "Medicine marked as SOLD" } : Check) ∈ vpC2.1.checks :=
  (C2_two_tier_aggregation Htoy Ptoy envToy "B1" stSoldExpired).1 medSoldExpired
    (by decide) (by decide) (by decide) vpC2.1 vpC2.2 (by decide)

/-- C3 counterexample: scanning an unknown batch on a fresh engine appends
two blocks (one for the alert, one for the failed verification), not one:
the chain grows from 1 block to 3. -/
theorem C3_counterexample :
    (verifyMedicine Htoy Ptoy envToy "ZZ" stToy).map
        (fun p => (p.1.isAuthentic, p.2.alerts.length, p.2.chain.length)) =
      some (false, 1, 3) ∧
    stToy.chain.length = 1 ∧ stToy.alerts.length = 0 := by
  decide

/-- C3 amended: for a batch identifier absent from the medicine map,
verifyMedicine returns isAuthentic false with medicine null, appends exactly
one alert, and appends exactly two blocks — one inside createAlert and one
for the failed-verification record. -/
theorem C3_amended (H : String → String) (P : String → Option Int) (env : Env)
    (b : String) (st : EngineState) (hmed : mapGet st.medicines b = none)
    (res : VerifyResult) (st2 : EngineState)
    (h : verifyMedicine H P env b st = some (res, st2)) :
    res.isAuthentic = false ∧ res.medicine = none ∧
    st2.alerts.length = st.alerts.length + 1 ∧
    st2.chain.length = st.chain.length + 2 := by
  simp only [verifyMedicine, hmed] at h
  split at h
  · simp at h
  next a stA heqA =>
    split at h
    · simp at h
    next blk stB heqB =>
      simp at h
      obtain ⟨hres, hst⟩ := h
      obtain ⟨hcA, haA, _⟩ := createAlert_effect heqA
      have hcB := addBlock_chain heqB
      refine ⟨by rw [← hres], by rw [← hres], ?_, ?_⟩
      · rw [← hst, hcB]
        show stA.alerts.length = st.alerts.length + 1
        rw [haA]
        simp
      · rw [← hst, hcB]
        show (stA.chain ++ [blk]).length = st.chain.length + 2
        rw [List.length_append, hcA]
        simp

/-- Witness for C3 amended: scanning the unknown batch NOPE. -/
theorem C3_witness :
    vpC3.1.isAuthentic = false ∧ vpC3.1.medicine = none ∧
    vpC3.2.alerts.length = stToy.alerts.length + 1 ∧
    vpC3.2.chain.length = stToy.chain.length + 2 :=
  C3_amended Htoy Ptoy envToy "NOPE" stToy (by decide) vpC3.1 vpC3.2 (by decide)

/-- C4 counterexample: reachable corresponding states (one registered batch,
status active in both stores) on which the two implementations disagree —
the reference engine fails the expired record while the consensus-runtime
implementation, which never checks the expiry date, accepts it. -/
theorem C4_counterexample :
    corrList stRegExpired.medicines solRegExpired.medicines = true ∧
    (verifyMedicine Htoy Ptoy envToy "B1" stRegExpired).map (fun p => p.1.isAuthentic) =
      some false ∧
    (solVerifyMedicine "verifier" 200 "B1" solRegExpired).1.isAuthentic = true := by
  decide

/-- C4 amended: the two verifyMedicine implementations agree when the batch
is absent from both stores (both false), when it is marked sold in both
(both false), and on an active record that is unexpired with a valid
confirming block reference (both true); they diverge on expired records
(reference engine false, contract true) and on flagged records (contract
false, reference engine possibly true). -/
theorem C4_amended (H : String → String) (P : String → Option Int) (env : Env)
    (sender : String) (now : Nat) (b : String) (js : EngineState) (sol : SolState) :
    (mapGet js.medicines b = none → mapGet sol.medicines b = none →
      ((∀ res st2, verifyMedicine H P env b js = some (res, st2) → res.isAuthentic = false) ∧
        (solVerifyMedicine sender now b sol).1.isAuthentic = false)) ∧
    (∀ m sm, mapGet js.medicines b = some m → mapGet sol.medicines b = some sm →
      m.status = "sold" → sm.status = .sold →
      ((∀ res st2, verifyMedicine H P env b js = some (res, st2) → res.isAuthentic = false) ∧
        (solVerifyMedicine sender now b sol).1.isAuthentic = false)) ∧
    (∀ m sm i, mapGet js.medicines b = some m → mapGet sol.medicines b = some sm →
      m.status = "active" → sm.status = .active →
      expiryOk P env.nowMs m.expiryDate = true →
      m.blockNumber = some i → i < js.chain.length →
      ((∀ res st2, verifyMedicine H P env b js = some (res, st2) → res.isAuthentic = true) ∧
        (solVerifyMedicine sender now b sol).1.isAuthentic = true)) := by
  refine ⟨?_, ?_, ?_⟩
  · intro hjs hsol
    constructor
    · intro res st2 h
      simp only [verifyMedicine, hjs] at h
      split at h
      · simp at h
      next a stA heqA =>
        split at h
        · simp at h
        next blk stB heqB =>
          simp at h
          rw [← h.1]
    · simp [solVerifyMedicine, hsol]
  · intro m sm hm hsm hms hss
    constructor
    · intro res st2 h
      simp only [verifyMedicine, hm, hms, bne_self_eq_false, Bool.false_and,
        Bool.and_false, Bool.false_eq_true, if_false] at h
      split at h
      · simp at h
      next blk stB heqB =>
        split at h
        · simp at h
        next a stC heqC =>
          simp at h
          rw [← h.1]
    · simp [solVerifyMedicine, hsm, hss]
  · intro m sm i hm hsm hms hss hexp hbn hlt
    constructor
    · intro res st2 h
      have hsold : (m.status != "sold") = true := by rw [hms]; decide
      have hdec : decide (i < js.chain.length) = true := decide_eq_true hlt
      simp only [verifyMedicine, hm, hexp, hsold, hbn, hdec, Bool.true_and,
        Bool.and_true, Bool.and_self, if_true] at h
      split at h
      · simp at h
      next blk stB heqB =>
        simp at h
        rw [← h.1]
    · simp [solVerifyMedicine, hsm, hss]

/-- Witness for C4 amended in all three agreement cases. -/
theorem C4_witness :
    (vpC4a.1.isAuthentic = false ∧
      (solVerifyMedicine "v" 7 "QQ" (solInit "owner")).1.isAuthentic = false) ∧
    (vpC2.1.isAuthentic = false ∧
      (solVerifyMedicine "v" 7 "B1" solSoldState).1.isAuthentic = false) ∧
    (vpC4active.1.isAuthentic = true ∧
      (solVerifyMedicine "v" 7 "B1" solRegExpired).1.isAuthentic = true) := by
  have p1 := (C4_amended Htoy Ptoy envToy "v" 7 "QQ" stToy (solInit "owner")).1
    (by decide) (by decide)
  have p2 := (C4_amended Htoy Ptoy envToy "v" 7 "B1" stSoldExpired solSoldState).2.1
    medSoldExpired smSold (by decide) (by decide) (by decide) (by decide)
  have p3 := (C4_amended Htoy Ptoy envToy "v" 7 "B1" stRegToy solRegExpired).2.2
    medActiveToy smActive 1 (by decide) (by decide) (by decide) (by decide)
    (by decide) (by decide) (by decide)
  exact ⟨⟨p1.1 vpC4a.1 vpC4a.2 (by decide), p1.2⟩,
         ⟨p2.1 vpC2.1 vpC2.2 (by decide), p2.2⟩,
         ⟨p3.1 vpC4active.1 vpC4active.2 (by decide), p3.2⟩⟩

/-- C6 counterexample: the in-process engine performs no empty-input
validation — registering an empty batch identifier on a fresh engine
succeeds (no InvalidInput error), appends a block, and creates a record
under the empty key. -/
theorem C6_counterexample :
    (registerMedicine Htoy envToy mdEmptyBatch stToy).map
        (fun p => (exceptOk p.1, p.2.chain.length, mapHas p.2.medicines "")) =
      some (true, 2, true) ∧ stToy.chain.length = 1 := by
  decide

/-- C6 amended: the consensus-runtime implementation rejects an empty batch
identifier or medicine name before any mutation (the call reverts, leaving
the state unchanged), while the in-process engine performs no such
validation — an empty batch identifier that is not yet present registers
successfully, appending a block and creating a record under the empty key. -/
theorem C6_amended :
    (∀ sender now name batch mid mname mfg exp s,
      (sender ∈ SolState.authorizedManufacturers s ∨ sender = SolState.owner s) →
      (batch = "" ∨ name = "") →
      ∃ e, solRegisterMedicine sender now name batch mid mname mfg exp s = .error e) ∧
    (∀ (H : String → String) env d st, d.batchNumber = "" →
      mapHas st.medicines "" = false →
      ∀ res st2, registerMedicine H env d st = some (res, st2) →
        exceptOk res = true ∧ st2.chain.length = st.chain.length + 1 ∧
        mapHas st2.medicines "" = true) := by
  constructor
  · intro sender now name batch mid mname mfg exp s hauth hempty
    unfold solRegisterMedicine
    rw [if_pos hauth]
    by_cases hdup : mapHas s.medicines batch = true
    · exact ⟨"Batch number already registered", by rw [if_pos hdup]⟩
    · have hdup2 : mapHas s.medicines batch = false := by
        revert hdup
        cases mapHas s.medicines batch <;> simp
      rcases hempty with hb | hn
      · subst hb
        exact ⟨"Batch number cannot be empty", by simp [hdup2]⟩
      · subst hn
        by_cases hb0 : batch.length = 0
        · exact ⟨"Batch number cannot be empty", by simp [hdup2, hb0]⟩
        · exact ⟨"Medicine name cannot be empty", by simp [hdup2, hb0]⟩
  · intro H env d st hbatch hfree res st2 h
    simp only [registerMedicine, hbatch, hfree, Bool.false_eq_true, if_false] at h
    split at h
    · simp at h
    next blk stB heqB =>
      simp at h
      obtain ⟨hres, hst⟩ := h
      have hcB := addBlock_chain heqB
      refine ⟨by rw [← hres]; rfl, ?_, ?_⟩
      · rw [← hst]
        show stB.chain.length = st.chain.length + 1
        rw [hcB]
        simp
      · rw [← hst]
        simp [mapHas, mapGet_set_self]

/-- Witness for C6 amended: the contract rejects an empty batch id from the
owner, and the engine accepts one on a fresh state. -/
theorem C6_witness :
    (∃ e, solRegisterMedicine "owner" 9 "Med" "" "M1" "Acme" "d0" "future"
        (solInit "owner") = .error e) ∧
    ((registerMedicine Htoy envToy mdEmptyBatch stToy).map
        (fun p => (exceptOk p.1, p.2.chain.length, mapHas p.2.medicines "")) =
      some (true, stToy.chain.length + 1, true)) := by
  constructor
  · exact C6_amended.1 "owner" 9 "Med" "" "M1" "Acme" "d0" "future" (solInit "owner")
      (by decide) (Or.inl rfl)
  · have hsome : (registerMedicine Htoy envToy mdEmptyBatch stToy).isSome = true := by decide
    cases hr : registerMedicine Htoy envToy mdEmptyBatch stToy with
    | none => rw [hr] at hsome; simp at hsome
    | some pr =>
      obtain ⟨res, st2⟩ := pr
      obtain ⟨h1, h2, h3⟩ := C6_amended.2 Htoy envToy mdEmptyBatch stToy rfl (by decide)
        res st2 hr
      simp [hr, h1, h2, h3]

/-- C9: search is total exactly when every stored record carries a
medicineName — registerMedicine stores the caller payload without
validating it, and a record registered without a medicineName makes a
subsequent search (whose query misses the batch number) raise a type error
(modelled as none); a missing manufacturerName, by contrast, is guarded and
harmless. -/
theorem C9_search_totality :
    (∀ st q, (∀ p ∈ st.medicines, (p.2).medicineName.isSome = true) →
      (search st q).isSome = true) ∧
    ((registerMedicine Htoy envToy mdNoName stToy).map (fun p => search p.2 "zz") =
      some none) ∧
    ((registerMedicine Htoy envToy mdNoMfr stToy).map
        (fun p => (search p.2 "zz").isSome) = some true) := by
  refine ⟨?_, by decide, by decide⟩
  intro st q hall
  unfold search getAllMedicines
  apply searchGo_isSome
  intro m hm
  simp only [List.mem_map] at hm
  obtain ⟨p, hp, hpm⟩ := hm
  rw [← hpm]
  exact hall p hp

/-- Witness for C9: on an engine whose records all carry names, search is
total. -/
theorem C9_witness : (search stRegToy "q").isSome = true :=
  C9_search_totality.1 stRegToy "q" (by decide)

end MediChain
